import Mathlib

/-!
SAPI (Sequence Alignment Programming Interface), version 0.0.3.

A shallow embedding of `sapi.h`: the flag, CIGAR and content-selection constants, the
alignment record `sa_aln_t`, and the accessor macros over its payload.

Conventions of the embedding.

* A value of a C integer type is a mathematical integer together with its range; a signed
  32-bit operation whose exact result leaves the range is reduced by `wrap32`.
* A bit-field of width `w` is a `Fin (2 ^ w)`; used in an expression it is promoted to `int`
  and keeps its value.
* An accessor that yields a pointer into the payload is embedded as the byte offset of that
  pointer from `data`. Adding an integer to a pointer is exact (no reduction): only the
  integer subexpressions, `n_cigar*4` and `(l_qseq + 1)/2`, are computed in `int`.
-/

namespace Sapi

/-! ## Machine integers -/

/-- Values of the C type `int32_t` (and of `int`, which is 32 bits wide here). -/
abbrev int32_t : Type := {x : Int // -2147483648 ≤ x ∧ x ≤ 2147483647}

/-- Values of the C type `uint8_t`. -/
abbrev uint8_t : Type := Fin 256

/-- Two's-complement reduction of an exact result to the range of a signed 32-bit integer. -/
def wrap32 (x : Int) : Int := (x + 2147483648) % 4294967296 - 2147483648

/-! ## SAM bitwise flags (sapi.h, lines 14-24) -/

def SAM_FPAIRED : Nat := 1
def SAM_FPROPER_PAIR : Nat := 2
def SAM_FUNMAP : Nat := 4
def SAM_FMUNMAP : Nat := 8
def SAM_FREVERSE : Nat := 16
def SAM_FMREVERSE : Nat := 32
def SAM_FREAD1 : Nat := 64
def SAM_FREAD2 : Nat := 128
def SAM_FSECONDARY : Nat := 256
def SAM_FQCFAIL : Nat := 512
def SAM_FDUP : Nat := 1024

/-- The eleven flag constants in the order the record description lists them: paired,
proper-pair, unmapped, mate-unmapped, reverse-strand, mate-reverse-strand, first-in-pair,
second-in-pair, secondary, QC-fail, duplicate. -/
def samFlags : List Nat :=
  [SAM_FPAIRED, SAM_FPROPER_PAIR, SAM_FUNMAP, SAM_FMUNMAP, SAM_FREVERSE, SAM_FMREVERSE,
   SAM_FREAD1, SAM_FREAD2, SAM_FSECONDARY, SAM_FQCFAIL, SAM_FDUP]

/-- The flag at position `k` of the enumeration. -/
def samFlag (k : Fin 11) : Nat := samFlags.getD k.val 0

/-- Bitwise OR of the flags selected by `S`. -/
def flagsOr (S : List (Fin 11)) : Nat := (S.map samFlag).foldr (fun f acc => f ||| acc) 0

/-! ## SAM CIGAR operations (sapi.h, lines 30-36) -/

def SAM_CMATCH : Nat := 0
def SAM_CINS : Nat := 1
def SAM_CDEL : Nat := 2
def SAM_CREF_SKIP : Nat := 3
def SAM_CSOFT_CLIP : Nat := 4
def SAM_CHARD_CLIP : Nat := 5
def SAM_CPAD : Nat := 6

/-- The seven operation codes in the order the record description lists the kinds: match,
insertion, deletion, reference-skip, soft-clip, hard-clip, padding. -/
def samCigarOps : List Nat :=
  [SAM_CMATCH, SAM_CINS, SAM_CDEL, SAM_CREF_SKIP, SAM_CSOFT_CLIP, SAM_CHARD_CLIP, SAM_CPAD]

/-! ## Content selection (sapi.h, lines 52-58) -/

def SA_GET_CORE : Nat := 0x1
def SA_GET_CIGAR : Nat := 0x2
def SA_GET_QNAME : Nat := 0x4
def SA_GET_SEQ : Nat := 0x8
def SA_GET_QUAL : Nat := 0x10
def SA_GET_TAGS : Nat := 0x20
def SA_GET_ALL : Nat := 0xffffffff

/-- The six segment selectors in the order the decode mask lists them: core fields, CIGAR,
name, sequence, quality, tags. -/
def saGetSelectors : List Nat :=
  [SA_GET_CORE, SA_GET_CIGAR, SA_GET_QNAME, SA_GET_SEQ, SA_GET_QUAL, SA_GET_TAGS]

/-! ## Alignment record (sapi.h, lines 64-77) -/

/-- The anonymous `core` struct of `sa_aln_t`. The three fields of the first `uint32_t` are
bit-fields of widths 16, 8 and 8, those of the second of widths 16 and 16. -/
structure sa_aln_core where
  tid : int32_t
  pos : int32_t
  dummay : Fin 65536
  qual : Fin 256
  l_qname : Fin 256
  flag : Fin 65536
  n_cigar : Fin 65536
  l_qseq : int32_t
  mtid : int32_t
  mpos : int32_t
  isize : int32_t

/-- The record `sa_aln_t`; `data` is the buffer the pointer of that name refers to. -/
structure sa_aln_t where
  core : sa_aln_core
  l_data : int32_t
  m_data : int32_t
  data : List uint8_t

/-! ## Payload accessors (sapi.h, lines 81-86), as byte offsets from `data` -/

/-- The subexpression `(b)->core.n_cigar*4`: the bit-field is promoted to `int` and the
product is computed in `int`. -/
def cigar_bytes (b : sa_aln_t) : Int := wrap32 ((b.core.n_cigar.val : Int) * 4)

/-- The subexpression `((b)->core.l_qseq + 1)/2`: sum and quotient are computed in `int`, and
C division truncates toward zero. -/
def seq_bytes (b : sa_aln_t) : Int := Int.tdiv (wrap32 (b.core.l_qseq.val + 1)) 2

/-- Offset of `sa_aln_qname(b)`, that is `(char*)((b)->data)`. -/
def sa_aln_qname (_b : sa_aln_t) : Int := 0

/-- Offset of `sa_aln_cigar(b)`, that is `(uint32_t*)((b)->data + (b)->core.l_qname)`. -/
def sa_aln_cigar (b : sa_aln_t) : Int := 0 + (b.core.l_qname.val : Int)

/-- Offset of `sa_aln_seq(b)`, that is `(b)->data + (b)->core.n_cigar*4 + (b)->core.l_qname`. -/
def sa_aln_seq (b : sa_aln_t) : Int := 0 + cigar_bytes b + (b.core.l_qname.val : Int)

/-- Offset of `sa_aln_qual(b)`, that is
`(b)->data + (b)->core.n_cigar*4 + (b)->core.l_qname + ((b)->core.l_qseq + 1)/2`. -/
def sa_aln_qual (b : sa_aln_t) : Int :=
  0 + cigar_bytes b + (b.core.l_qname.val : Int) + seq_bytes b

/-- Offset of `sa_aln_aux(b)`, that is `(b)->data + (b)->core.n_cigar*4 + (b)->core.l_qname
+ (b)->core.l_qseq + ((b)->core.l_qseq + 1)/2`. -/
def sa_aln_aux (b : sa_aln_t) : Int :=
  0 + cigar_bytes b + (b.core.l_qname.val : Int) + b.core.l_qseq.val + seq_bytes b

/-- A record with a 5-byte name, 3 CIGAR operations and 7 bases, on the reverse strand. -/
def sample_aln : sa_aln_t :=
  { core := { tid := ⟨0, by decide⟩, pos := ⟨100, by decide⟩, dummay := 0, qual := 30,
              l_qname := 5, flag := 16, n_cigar := 3, l_qseq := ⟨7, by decide⟩,
              mtid := ⟨-1, by decide⟩, mpos := ⟨-1, by decide⟩, isize := ⟨0, by decide⟩ },
    l_data := ⟨28, by decide⟩, m_data := ⟨32, by decide⟩, data := List.replicate 28 0 }

/-- A record with the three lengths of `sample_aln` and every other field different. -/
def sample_aln_other : sa_aln_t :=
  { core := { tid := ⟨3, by decide⟩, pos := ⟨7000, by decide⟩, dummay := 9, qual := 60,
              l_qname := 5, flag := 99, n_cigar := 3, l_qseq := ⟨7, by decide⟩,
              mtid := ⟨3, by decide⟩, mpos := ⟨7200, by decide⟩, isize := ⟨250, by decide⟩ },
    l_data := ⟨40, by decide⟩, m_data := ⟨64, by decide⟩, data := List.replicate 40 255 }

/-- A record whose query length is the largest `int32_t`. -/
def longest_aln : sa_aln_t :=
  { core := { tid := ⟨0, by decide⟩, pos := ⟨0, by decide⟩, dummay := 0, qual := 0,
              l_qname := 1, flag := 0, n_cigar := 0, l_qseq := ⟨2147483647, by decide⟩,
              mtid := ⟨-1, by decide⟩, mpos := ⟨-1, by decide⟩, isize := ⟨0, by decide⟩ },
    l_data := ⟨0, by decide⟩, m_data := ⟨0, by decide⟩, data := [] }

/-- A record with a 2-byte name and one CIGAR operation whose query length is the largest
`int32_t`. -/
def longest_aln_one_op : sa_aln_t :=
  { core := { tid := ⟨1, by decide⟩, pos := ⟨5, by decide⟩, dummay := 0, qual := 0,
              l_qname := 2, flag := 4, n_cigar := 1, l_qseq := ⟨2147483647, by decide⟩,
              mtid := ⟨-1, by decide⟩, mpos := ⟨-1, by decide⟩, isize := ⟨0, by decide⟩ },
    l_data := ⟨0, by decide⟩, m_data := ⟨0, by decide⟩, data := [] }

/-! ## Packed bases (sapi.h, line 84) -/

/-- A `uint8_t *` seen through indexing: `s j` is the byte `s[j]`, and `none` where `s[j]`
lies outside the object pointed into. -/
abbrev byte_ptr : Type := Int → Option uint8_t

/-- The pointer `buf + off` into the array `buf`. -/
def ptr_at (buf : List uint8_t) (off : Int) : byte_ptr :=
  fun j => if 0 ≤ off + j then buf.get? (off + j).toNat else none

/-- The subscript `(i)/2` of `sa_aln_seqi(s, i)`; C division truncates toward zero. -/
def sa_aln_seqi_index (i : Int) : Int := Int.tdiv i 2

/-- The shift count `4*(1-(i)%2)` of `sa_aln_seqi(s, i)`; C remainder has the sign of `i`. -/
def sa_aln_seqi_shift (i : Int) : Int := 4 * (1 - Int.tmod i 2)

/-- The macro `sa_aln_seqi(s, i)`, that is `(s)[(i)/2] >> 4*(1-(i)%2) & 0xf`, which parses as
`((s)[(i)/2] >> (4*(1-(i)%2))) & 0xf`. -/
def sa_aln_seqi (s : byte_ptr) (i : Int) : Option Nat :=
  (s (sa_aln_seqi_index i)).map fun x => (x.val >>> (sa_aln_seqi_shift i).toNat) &&& 0xf

/-- Packing as the record description words it: two bases per byte, high nibble first. The
low nibble of the last byte of an odd-length sequence is `pad`. -/
def packHighNibbleFirst (pad : Fin 16) : List (Fin 16) → List uint8_t
  | [] => []
  | [c] => [⟨16 * c.val + pad.val, by omega⟩]
  | c :: d :: rest => ⟨16 * c.val + d.val, by omega⟩ :: packHighNibbleFirst pad rest

/-! ## Strand accessors (sapi.h, lines 79-80) -/

/-- Identifiers that the flag definitions and the strand accessors of sapi.h mention. -/
inductive Ident where
  | SAM_FPAIRED | SAM_FPROPER_PAIR | SAM_FUNMAP | SAM_FMUNMAP | SAM_FREVERSE | SAM_FMREVERSE
  | SAM_FREAD1 | SAM_FREAD2 | SAM_FSECONDARY | SAM_FQCFAIL | SAM_FDUP
  | BAM_FREVERSE | BAM_FMREVERSE
  deriving DecidableEq, Repr

/-- What a translation unit defines: the integer constant an identifier stands for, or `none`
for an identifier that is not defined. -/
abbrev Defines : Type := Ident → Option Nat

/-- The definitions sapi.h itself provides (lines 14-24). It has no line defining
`BAM_FREVERSE` or `BAM_FMREVERSE`. -/
def sapi_defines : Defines
  | Ident.SAM_FPAIRED => some SAM_FPAIRED
  | Ident.SAM_FPROPER_PAIR => some SAM_FPROPER_PAIR
  | Ident.SAM_FUNMAP => some SAM_FUNMAP
  | Ident.SAM_FMUNMAP => some SAM_FMUNMAP
  | Ident.SAM_FREVERSE => some SAM_FREVERSE
  | Ident.SAM_FMREVERSE => some SAM_FMREVERSE
  | Ident.SAM_FREAD1 => some SAM_FREAD1
  | Ident.SAM_FREAD2 => some SAM_FREAD2
  | Ident.SAM_FSECONDARY => some SAM_FSECONDARY
  | Ident.SAM_FQCFAIL => some SAM_FQCFAIL
  | Ident.SAM_FDUP => some SAM_FDUP
  | Ident.BAM_FREVERSE => none
  | Ident.BAM_FMREVERSE => none

/-- A translation unit that, besides sapi.h, defines the two `BAM_` identifiers. -/
def with_bam_flags (rev mrev : Nat) : Defines
  | Ident.BAM_FREVERSE => some rev
  | Ident.BAM_FMREVERSE => some mrev
  | x => sapi_defines x

/-- The macro `sa_aln_strand(b)`, that is `(((b)->core.flag&BAM_FREVERSE) != 0)`; it has a
value only where `BAM_FREVERSE` is defined. -/
def sa_aln_strand (env : Defines) (b : sa_aln_t) : Option Nat :=
  (env Ident.BAM_FREVERSE).map fun m => if b.core.flag.val &&& m ≠ 0 then 1 else 0

/-- The macro `sa_aln_mstrand(b)`, that is `(((b)->core.flag&BAM_FMREVERSE) != 0)`; it has a
value only where `BAM_FMREVERSE` is defined. -/
def sa_aln_mstrand (env : Defines) (b : sa_aln_t) : Option Nat :=
  (env Ident.BAM_FMREVERSE).map fun m => if b.core.flag.val &&& m ≠ 0 then 1 else 0

/-! ## Overlap queries (sapi.h, lines 122-123 and 137-138, declarations only) -/

theorem wrap32_eq_self (x : Int) (hlo : -2147483648 ≤ x) (hhi : x ≤ 2147483647) :
    wrap32 x = x := by
  unfold wrap32
  omega

theorem wrap32_max_succ : wrap32 (2147483647 + 1) = -2147483648 := by
  decide

/-- The least integer not below `n / 2` is the floor quotient `(n + 1) / 2`. -/
theorem ceil_half (n : Int) : ⌈((n : Int) : ℚ) / 2⌉ = (n + 1) / 2 := by
  rw [Int.ceil_eq_iff]
  have h2 : (2 : Int) * ((n + 1) / 2) ≤ n + 1 := by omega
  have h3 : n + 1 < (2 : Int) * ((n + 1) / 2) + 2 := by omega
  have h2q : (2 : ℚ) * (((n + 1) / 2 : Int) : ℚ) ≤ (n : ℚ) + 1 := by exact_mod_cast h2
  have h3q : (n : ℚ) ≤ (2 : ℚ) * (((n + 1) / 2 : Int) : ℚ) := by
    have : n ≤ (2 : Int) * ((n + 1) / 2) := by omega
    exact_mod_cast this
  constructor
  · linarith
  · linarith

theorem cigar_bytes_eq (b : sa_aln_t) : cigar_bytes b = 4 * (b.core.n_cigar.val : Int) := by
  unfold cigar_bytes
  have h := b.core.n_cigar.isLt
  rw [wrap32_eq_self _ (by omega) (by omega)]
  ring

theorem seq_bytes_eq (b : sa_aln_t) (h0 : 0 ≤ b.core.l_qseq.val)
    (h1 : b.core.l_qseq.val < 2147483647) :
    seq_bytes b = (b.core.l_qseq.val + 1) / 2 := by
  unfold seq_bytes
  rw [wrap32_eq_self _ (by omega) (by omega)]
  exact Int.tdiv_eq_ediv (by omega) (by decide)

theorem seq_bytes_longest (b : sa_aln_t) (h : b.core.l_qseq.val = 2147483647) :
    seq_bytes b = -1073741824 := by
  unfold seq_bytes
  rw [h, wrap32_max_succ]
  decide

/-! ## Payload layout -/

/-- C1 (amended): for every record with `0 ≤ l_qseq < 2^31 - 1` (the bit-fields `l_qname` and
`n_cigar` are never negative) the five payload accessors are at byte offsets `0`, `l_qname`,
`l_qname + 4*n_cigar`, `l_qname + 4*n_cigar + ⌈l_qseq/2⌉` and
`l_qname + 4*n_cigar + ⌈l_qseq/2⌉ + l_qseq`; each segment starts where the previous one ends,
the segment lengths being `l_qname`, `4*n_cigar`, `⌈l_qseq/2⌉` and `l_qseq`; and the offsets
are non-decreasing in the order name, CIGAR, sequence, quality, tags. -/
theorem C1_payload_layout (b : sa_aln_t) (h0 : 0 ≤ b.core.l_qseq.val)
    (h1 : b.core.l_qseq.val < 2147483647) :
    (sa_aln_qname b = 0
      ∧ sa_aln_cigar b = (b.core.l_qname.val : Int)
      ∧ sa_aln_seq b = (b.core.l_qname.val : Int) + 4 * (b.core.n_cigar.val : Int)
      ∧ sa_aln_qual b = (b.core.l_qname.val : Int) + 4 * (b.core.n_cigar.val : Int)
          + ⌈((b.core.l_qseq.val : Int) : ℚ) / 2⌉
      ∧ sa_aln_aux b = (b.core.l_qname.val : Int) + 4 * (b.core.n_cigar.val : Int)
          + ⌈((b.core.l_qseq.val : Int) : ℚ) / 2⌉ + b.core.l_qseq.val)
    ∧ (sa_aln_cigar b = sa_aln_qname b + (b.core.l_qname.val : Int)
      ∧ sa_aln_seq b = sa_aln_cigar b + 4 * (b.core.n_cigar.val : Int)
      ∧ sa_aln_qual b = sa_aln_seq b + ⌈((b.core.l_qseq.val : Int) : ℚ) / 2⌉
      ∧ sa_aln_aux b = sa_aln_qual b + b.core.l_qseq.val)
    ∧ (sa_aln_qname b ≤ sa_aln_cigar b ∧ sa_aln_cigar b ≤ sa_aln_seq b
      ∧ sa_aln_seq b ≤ sa_aln_qual b ∧ sa_aln_qual b ≤ sa_aln_aux b) := by
  have hc := cigar_bytes_eq b
  have hs := seq_bytes_eq b h0 h1
  have hq : (0 : Int) ≤ (b.core.l_qname.val : Int) := Int.ofNat_nonneg _
  have hn : (0 : Int) ≤ (b.core.n_cigar.val : Int) := Int.ofNat_nonneg _
  rw [ceil_half]
  unfold sa_aln_qname sa_aln_cigar sa_aln_seq sa_aln_qual sa_aln_aux
  rw [hc, hs]
  refine ⟨⟨?_, ?_, ?_, ?_, ?_⟩, ⟨?_, ?_, ?_, ?_⟩, ⟨?_, ?_, ?_, ?_⟩⟩ <;> omega

/-- C1, witness: `sample_aln` (5-byte name, 3 operations, 7 bases) meets the hypotheses, so
its segments start at 0, 5, 17, 21 and 28. -/
theorem C1_payload_layout_witness :
    (0 ≤ sample_aln.core.l_qseq.val ∧ sample_aln.core.l_qseq.val < 2147483647)
    ∧ (sa_aln_qname sample_aln = 0
      ∧ sa_aln_cigar sample_aln = (sample_aln.core.l_qname.val : Int)
      ∧ sa_aln_seq sample_aln
          = (sample_aln.core.l_qname.val : Int) + 4 * (sample_aln.core.n_cigar.val : Int)
      ∧ sa_aln_qual sample_aln
          = (sample_aln.core.l_qname.val : Int) + 4 * (sample_aln.core.n_cigar.val : Int)
            + ⌈((sample_aln.core.l_qseq.val : Int) : ℚ) / 2⌉
      ∧ sa_aln_aux sample_aln
          = (sample_aln.core.l_qname.val : Int) + 4 * (sample_aln.core.n_cigar.val : Int)
            + ⌈((sample_aln.core.l_qseq.val : Int) : ℚ) / 2⌉ + sample_aln.core.l_qseq.val)
    ∧ (sa_aln_cigar sample_aln = 5 ∧ sa_aln_seq sample_aln = 17 ∧ sa_aln_qual sample_aln = 21
      ∧ sa_aln_aux sample_aln = 28) :=
  ⟨⟨by decide, by decide⟩, (C1_payload_layout sample_aln (by decide) (by decide)).1,
    by decide, by decide, by decide, by decide⟩

/-- C1, counterexample: `longest_aln` has `l_qseq = 2^31 - 1 ≥ 0`, yet `sa_aln_qual` is not at
`l_qname + 4*n_cigar + ⌈l_qseq/2⌉` (it is at `1 - 2^30`, the sum `l_qseq + 1` having
wrapped), and it lies before `sa_aln_seq`: the offsets are not non-decreasing. -/
theorem C1_counterexample :
    0 ≤ longest_aln.core.l_qseq.val
    ∧ sa_aln_qual longest_aln
        ≠ (longest_aln.core.l_qname.val : Int) + 4 * (longest_aln.core.n_cigar.val : Int)
          + ⌈((longest_aln.core.l_qseq.val : Int) : ℚ) / 2⌉
    ∧ sa_aln_qual longest_aln = -1073741823
    ∧ ¬ (sa_aln_seq longest_aln ≤ sa_aln_qual longest_aln) := by
  rw [ceil_half]
  refine ⟨by decide, by decide, by decide, by decide⟩

/-- C5: two records that agree on `l_qname`, `n_cigar` and `l_qseq` have the same five payload
offsets, whatever their other core fields, `l_data`, `m_data` and payload bytes are; in
particular the payload before the tag segment has the same size in both. -/
theorem C5_offsets_depend_on_lengths (b1 b2 : sa_aln_t)
    (hq : b1.core.l_qname = b2.core.l_qname) (hc : b1.core.n_cigar = b2.core.n_cigar)
    (hs : b1.core.l_qseq = b2.core.l_qseq) :
    sa_aln_qname b1 = sa_aln_qname b2 ∧ sa_aln_cigar b1 = sa_aln_cigar b2
    ∧ sa_aln_seq b1 = sa_aln_seq b2 ∧ sa_aln_qual b1 = sa_aln_qual b2
    ∧ sa_aln_aux b1 = sa_aln_aux b2 := by
  unfold sa_aln_qname sa_aln_cigar sa_aln_seq sa_aln_qual sa_aln_aux cigar_bytes seq_bytes
  rw [hq, hc, hs]
  exact ⟨rfl, rfl, rfl, rfl, rfl⟩

/-- C5, witness: `sample_aln` and `sample_aln_other` agree on the three lengths and differ in
every other field, in `l_data`, `m_data` and in their bytes; their offsets coincide. -/
theorem C5_offsets_depend_on_lengths_witness :
    (sample_aln.core.l_qname = sample_aln_other.core.l_qname
      ∧ sample_aln.core.n_cigar = sample_aln_other.core.n_cigar
      ∧ sample_aln.core.l_qseq = sample_aln_other.core.l_qseq)
    ∧ (sample_aln.core.tid ≠ sample_aln_other.core.tid
      ∧ sample_aln.core.flag ≠ sample_aln_other.core.flag
      ∧ sample_aln.l_data ≠ sample_aln_other.l_data
      ∧ sample_aln.data ≠ sample_aln_other.data)
    ∧ (sa_aln_qname sample_aln = sa_aln_qname sample_aln_other
      ∧ sa_aln_cigar sample_aln = sa_aln_cigar sample_aln_other
      ∧ sa_aln_seq sample_aln = sa_aln_seq sample_aln_other
      ∧ sa_aln_qual sample_aln = sa_aln_qual sample_aln_other
      ∧ sa_aln_aux sample_aln = sa_aln_aux sample_aln_other) :=
  ⟨⟨by decide, by decide, by decide⟩, ⟨by decide, by decide, by decide, by decide⟩,
    C5_offsets_depend_on_lengths sample_aln sample_aln_other (by decide) (by decide)
      (by decide)⟩

/-- The byte `sa_aln_seqi(sa_aln_seq(b), i)` reads is the byte of `data` at offset
`sa_aln_seq(b) + i/2`. -/
theorem seqi_reads_data (b : sa_aln_t) (i : Int) :
    sa_aln_seqi (ptr_at b.data (sa_aln_seq b)) i
      = (ptr_at b.data 0 (sa_aln_seq b + sa_aln_seqi_index i)).map
          (fun x => (x.val >>> (sa_aln_seqi_shift i).toNat) &&& 0xf) := by
  simp [sa_aln_seqi, ptr_at]

/-- C9 (amended): for every record with `l_qseq < 2^31 - 1` and every base index `i` with
`0 ≤ i < l_qseq`, the byte `sa_aln_seqi(sa_aln_seq(b), i)` reads is the byte of `data` at
offset `sa_aln_seq(b) + i/2`; its index `i/2` in the sequence segment is non-negative and
below `(l_qseq + 1)/2`, so the byte lies strictly before `sa_aln_qual(b)`; and the last base
`i = l_qseq - 1` reads the last byte before `sa_aln_qual(b)`. -/
theorem C9_base_read_in_segment (b : sa_aln_t) (i : Int)
    (h1 : b.core.l_qseq.val < 2147483647) (hi0 : 0 ≤ i) (hi : i < b.core.l_qseq.val) :
    sa_aln_seqi (ptr_at b.data (sa_aln_seq b)) i
        = (ptr_at b.data 0 (sa_aln_seq b + sa_aln_seqi_index i)).map
            (fun x => (x.val >>> (sa_aln_seqi_shift i).toNat) &&& 0xf)
    ∧ 0 ≤ sa_aln_seqi_index i
    ∧ sa_aln_seqi_index i < seq_bytes b
    ∧ sa_aln_seq b + sa_aln_seqi_index i < sa_aln_qual b
    ∧ sa_aln_seq b + sa_aln_seqi_index (b.core.l_qseq.val - 1) = sa_aln_qual b - 1 := by
  have hs := seq_bytes_eq b (by omega) h1
  have hidx : sa_aln_seqi_index i = i / 2 := Int.tdiv_eq_ediv hi0 (by decide)
  have hlast : sa_aln_seqi_index (b.core.l_qseq.val - 1) = (b.core.l_qseq.val - 1) / 2 :=
    Int.tdiv_eq_ediv (by omega) (by decide)
  refine ⟨seqi_reads_data b i, ?_, ?_, ?_, ?_⟩
  · omega
  · omega
  · unfold sa_aln_qual sa_aln_seq
    omega
  · unfold sa_aln_qual sa_aln_seq
    omega

/-- C9, witness: base 6, the last of the 7 bases of `sample_aln`, is read from byte 3 of the
sequence segment, at offset 20 of `data`, the byte before `sa_aln_qual` (offset 21). -/
theorem C9_base_read_in_segment_witness :
    (sample_aln.core.l_qseq.val < 2147483647 ∧ (0 : Int) ≤ 6 ∧ (6 : Int) < sample_aln.core.l_qseq.val)
    ∧ (sa_aln_seqi_index 6 = 3 ∧ sa_aln_seq sample_aln + sa_aln_seqi_index 6 = 20
      ∧ sa_aln_qual sample_aln = 21)
    ∧ (sa_aln_seqi (ptr_at sample_aln.data (sa_aln_seq sample_aln)) 6
          = (ptr_at sample_aln.data 0 (sa_aln_seq sample_aln + sa_aln_seqi_index 6)).map
              (fun x => (x.val >>> (sa_aln_seqi_shift 6).toNat) &&& 0xf)
      ∧ 0 ≤ sa_aln_seqi_index 6
      ∧ sa_aln_seqi_index 6 < seq_bytes sample_aln
      ∧ sa_aln_seq sample_aln + sa_aln_seqi_index 6 < sa_aln_qual sample_aln
      ∧ sa_aln_seq sample_aln + sa_aln_seqi_index (sample_aln.core.l_qseq.val - 1)
          = sa_aln_qual sample_aln - 1) :=
  ⟨⟨by decide, by decide, by decide⟩, ⟨by decide, by decide, by decide⟩,
    C9_base_read_in_segment sample_aln 6 (by decide) (by decide) (by decide)⟩

/-- C9, counterexample: `longest_aln_one_op` has `l_qseq = 2^31 - 1 ≥ 0` and base 0 is a
valid index, yet the byte read (index 0 of the sequence segment, offset 6 of `data`) does not
lie before `sa_aln_qual`, which is at offset `6 - 2^30`. -/
theorem C9_counterexample :
    0 ≤ longest_aln_one_op.core.l_qseq.val
    ∧ ((0 : Int) ≤ 0 ∧ (0 : Int) < longest_aln_one_op.core.l_qseq.val)
    ∧ sa_aln_seq longest_aln_one_op + sa_aln_seqi_index 0 = 6
    ∧ sa_aln_qual longest_aln_one_op = -1073741818
    ∧ ¬ (sa_aln_seqi_index 0 < seq_bytes longest_aln_one_op)
    ∧ ¬ (sa_aln_seq longest_aln_one_op + sa_aln_seqi_index 0
          < sa_aln_qual longest_aln_one_op) := by
  refine ⟨by decide, ⟨by decide, by decide⟩, by decide, by decide, by decide, by decide⟩

/-- C10: for every record, `n_cigar*4` is at most 262140 and is not changed by 32-bit signed
reduction, and `l_qname` is at most 255; for `0 ≤ l_qseq < 2^31 - 1` the subexpression
`(l_qseq + 1)/2`, computed in 32-bit signed arithmetic, is exactly `⌈l_qseq/2⌉`; and among
the non-negative `l_qseq` the sum `l_qseq + 1` wraps exactly for `l_qseq = 2^31 - 1`. -/
theorem C10_int_subexpressions_do_not_wrap (b : sa_aln_t) :
    ((b.core.n_cigar.val : Int) * 4 ≤ 262140
      ∧ cigar_bytes b = (b.core.n_cigar.val : Int) * 4
      ∧ (b.core.l_qname.val : Int) ≤ 255)
    ∧ (0 ≤ b.core.l_qseq.val → b.core.l_qseq.val < 2147483647 →
        wrap32 (b.core.l_qseq.val + 1) = b.core.l_qseq.val + 1
        ∧ seq_bytes b = ⌈((b.core.l_qseq.val : Int) : ℚ) / 2⌉)
    ∧ (0 ≤ b.core.l_qseq.val →
        (wrap32 (b.core.l_qseq.val + 1) ≠ b.core.l_qseq.val + 1
          ↔ b.core.l_qseq.val = 2147483647)) := by
  have hn := b.core.n_cigar.isLt
  have hq := b.core.l_qname.isLt
  have hr := b.core.l_qseq.property
  refine ⟨⟨by omega, ?_, by omega⟩, ?_, ?_⟩
  · rw [cigar_bytes_eq]
    ring
  · intro h0 h1
    rw [ceil_half]
    exact ⟨wrap32_eq_self _ (by omega) (by omega), seq_bytes_eq b h0 h1⟩
  · intro h0
    unfold wrap32
    omega

/-! ## Packed bases -/

theorem seqi_index_nonneg (i : Int) (h : 0 ≤ i) : sa_aln_seqi_index i = i / 2 :=
  Int.tdiv_eq_ediv h (by decide)

theorem seqi_shift_nonneg (i : Int) (h : 0 ≤ i) :
    (sa_aln_seqi_shift i).toNat = if i % 2 = 0 then 4 else 0 := by
  unfold sa_aln_seqi_shift
  rw [Int.tmod_eq_emod h (by decide)]
  split <;> omega

theorem nibble_of_byte (x : uint8_t) (i : Int) (h : 0 ≤ i) :
    (x.val >>> (sa_aln_seqi_shift i).toNat) &&& 0xf
      = if i % 2 = 0 then x.val / 16 else x.val % 16 := by
  have hx := x.isLt
  rw [seqi_shift_nonneg i h]
  have hand : ∀ y : Nat, y &&& 0xf = y % 16 := fun y => Nat.and_pow_two_sub_one_eq_mod y 4
  split
  · rw [hand, Nat.shiftRight_eq_div_pow]
    omega
  · rw [hand, Nat.shiftRight_eq_div_pow]
    omega

theorem pack_get (pad : Fin 16) :
    ∀ (c : List (Fin 16)) (i : Nat) (h : i < c.length),
      ∃ x : uint8_t, (packHighNibbleFirst pad c).get? (i / 2) = some x
        ∧ (if i % 2 = 0 then x.val / 16 else x.val % 16) = (c.get ⟨i, h⟩).val
  | [], i, h => absurd h (by simp)
  | [c], 0, _ => ⟨⟨16 * c.val + pad.val, by omega⟩, by simp [packHighNibbleFirst], by
      simp; omega⟩
  | [c], i + 1, h => absurd h (by simp)
  | c :: d :: rest, 0, _ => ⟨⟨16 * c.val + d.val, by omega⟩, by simp [packHighNibbleFirst], by
      simp; omega⟩
  | c :: d :: rest, 1, _ => ⟨⟨16 * c.val + d.val, by omega⟩, by simp [packHighNibbleFirst], by
      simp; omega⟩
  | c :: d :: rest, i + 2, h => by
      obtain ⟨x, hx, hn⟩ := pack_get pad rest i (by simpa using h)
      refine ⟨x, ?_, ?_⟩
      · have : (i + 2) / 2 = i / 2 + 1 := by omega
        rw [this]
        simpa [packHighNibbleFirst] using hx
      · have : (i + 2) % 2 = i % 2 := by omega
        rw [this]
        simpa using hn

theorem pack_byte (pad : Fin 16) :
    ∀ (c : List (Fin 16)) (j : Nat), 2 * j < c.length →
      ((packHighNibbleFirst pad c).get? j).map (fun x => x.val)
        = some (16 * (c.getD (2 * j) 0).val + (c.getD (2 * j + 1) pad).val)
  | [], j, h => absurd h (by simp)
  | [c], 0, _ => by simp [packHighNibbleFirst]
  | [c], j + 1, h => absurd h (by simp)
  | c :: d :: rest, 0, _ => by simp [packHighNibbleFirst]
  | c :: d :: rest, j + 1, h => by
      have ih := pack_byte pad rest j (by simp at h; omega)
      have e1 : 2 * (j + 1) = (2 * j + 1) + 1 := by omega
      have e2 : 2 * (j + 1) + 1 = (2 * j + 1 + 1) + 1 := by omega
      rw [e1]
      simpa [packHighNibbleFirst, List.getD_cons_succ] using ih

/-- C2: `sa_aln_seqi` undoes high-nibble-first packing. The packed array of the base codes
`c_0 .. c_{n-1}` has `s[j] = 16*c_{2j} + c_{2j+1}` (the low nibble of the last byte being an
arbitrary `pad` when `n` is odd), and `sa_aln_seqi(s, i) = c_i` for every `i < n`. For every
byte pointer `s` and every `i ≥ 0`, `sa_aln_seqi(s, i)` is the high nibble of `s[i/2]` when
`i` is even and the low nibble when `i` is odd, and is at most 15. -/
theorem C2_seqi_unpacks :
    (∀ (pad : Fin 16) (c : List (Fin 16)) (j : Nat), 2 * j < c.length →
        ((packHighNibbleFirst pad c).get? j).map (fun x => x.val)
          = some (16 * (c.getD (2 * j) 0).val + (c.getD (2 * j + 1) pad).val))
    ∧ (∀ (pad : Fin 16) (c : List (Fin 16)) (i : Nat) (h : i < c.length),
        sa_aln_seqi (ptr_at (packHighNibbleFirst pad c) 0) (i : Int)
          = some (c.get ⟨i, h⟩).val)
    ∧ (∀ (s : byte_ptr) (i : Int), 0 ≤ i →
        sa_aln_seqi s i
            = (s (i / 2)).map (fun x => if i % 2 = 0 then x.val / 16 else x.val % 16)
          ∧ ∀ v, sa_aln_seqi s i = some v → v ≤ 15) := by
  have hgen : ∀ (s : byte_ptr) (i : Int), 0 ≤ i →
      sa_aln_seqi s i
        = (s (i / 2)).map (fun x => if i % 2 = 0 then x.val / 16 else x.val % 16) := by
    intro s i hi
    unfold sa_aln_seqi
    rw [seqi_index_nonneg i hi]
    cases s (i / 2) with
    | none => rfl
    | some x => simp only [Option.map_some']; rw [nibble_of_byte x i hi]
  refine ⟨pack_byte, ?_, ?_⟩
  · intro pad c i h
    obtain ⟨x, hx, hn⟩ := pack_get pad c i h
    rw [hgen _ _ (Int.ofNat_nonneg i)]
    have hp : ptr_at (packHighNibbleFirst pad c) 0 ((i : Int) / 2) = some x := by
      have hdiv : ((i : Int) / 2) = ((i / 2 : Nat) : Int) := by omega
      have hnat : (0 + ((i / 2 : Nat) : Int)).toNat = i / 2 := by omega
      rw [hdiv]
      unfold ptr_at
      rw [if_pos (by omega), hnat]
      exact hx
    rw [hp]
    simp only [Option.map_some']
    have hm : ((i : Int) % 2 = 0) ↔ (i % 2 = 0) := by omega
    by_cases hpar : i % 2 = 0
    · rw [if_pos (hm.mpr hpar)]
      rw [if_pos hpar] at hn
      rw [hn]
    · rw [if_neg (fun h => hpar (hm.mp h))]
      rw [if_neg hpar] at hn
      rw [hn]
  · intro s i hi
    refine ⟨hgen s i hi, ?_⟩
    intro v hv
    rw [hgen s i hi] at hv
    cases hs : s (i / 2) with
    | none => rw [hs] at hv; simp at hv
    | some x =>
      rw [hs] at hv
      simp only [Option.map_some', Option.some.injEq] at hv
      have hx := x.isLt
      split at hv <;> omega

/-! ## Constants -/

theorem samFlag_eq_two_pow : ∀ k : Fin 11, samFlag k = 2 ^ k.val := by
  decide

theorem and_two_pow_ne_zero (x k : Nat) : x &&& 2 ^ k ≠ 0 ↔ x.testBit k = true := by
  constructor
  · intro h
    by_contra hb
    apply h
    apply Nat.eq_of_testBit_eq
    intro j
    rw [Nat.testBit_and, Nat.testBit_two_pow, Nat.zero_testBit]
    by_cases hkj : k = j
    · subst hkj
      simp [hb]
    · simp [hkj]
  · intro hb h0
    have h1 : (x &&& 2 ^ k).testBit k = true := by
      rw [Nat.testBit_and, Nat.testBit_two_pow, hb]
      simp
    rw [h0, Nat.zero_testBit] at h1
    exact Bool.false_ne_true h1

theorem flagsOr_testBit (S : List (Fin 11)) (j : Nat) :
    (flagsOr S).testBit j = true ↔ ∃ k ∈ S, k.val = j := by
  induction S with
  | nil => simp [flagsOr]
  | cons a S ih =>
    have hcons : flagsOr (a :: S) = samFlag a ||| flagsOr S := rfl
    rw [hcons, Nat.testBit_or, samFlag_eq_two_pow, Nat.testBit_two_pow, Bool.or_eq_true, ih]
    simp

/-- C3: the eleven flag constants, in the order paired, proper-pair, unmapped, mate-unmapped,
reverse-strand, mate-reverse-strand, first-in-pair, second-in-pair, secondary, QC-fail,
duplicate, are `1, 2, 4, ..., 1024`: the `k`-th is `2^k`. They are pairwise distinct and each
is below `2^16`, so fits the 16-bit `flag` field. For every selection `S` of flags, the
bitwise OR of the selected flags has a non-zero AND with exactly the flags in `S`. -/
theorem C3_flag_bits :
    samFlags = [1, 2, 4, 8, 16, 32, 64, 128, 256, 512, 1024]
    ∧ samFlags.length = 11
    ∧ samFlags.Nodup
    ∧ (∀ k : Fin 11, samFlag k = 2 ^ k.val ∧ samFlag k < 2 ^ 16)
    ∧ (∀ (S : List (Fin 11)) (k : Fin 11), flagsOr S &&& samFlag k ≠ 0 ↔ k ∈ S) := by
  refine ⟨by decide, by decide, by decide, by decide, ?_⟩
  intro S k
  rw [samFlag_eq_two_pow, and_two_pow_ne_zero, flagsOr_testBit]
  constructor
  · rintro ⟨k2, hk2, hv⟩
    have : k2 = k := Fin.ext hv
    rw [← this]
    exact hk2
  · intro hk
    exact ⟨k, hk, rfl⟩

/-- C6: the six content selectors, in the order core fields, CIGAR, name, sequence, quality,
tags, are `1, 2, 4, 8, 16, 32`: single, pairwise distinct bits. `SA_GET_ALL` selects each of
them, and the mask `SA_GET_CORE` selects none of name, sequence, quality and tags. -/
theorem C6_content_selectors :
    saGetSelectors = [1, 2, 4, 8, 16, 32]
    ∧ saGetSelectors = (List.range 6).map (fun k => 2 ^ k)
    ∧ saGetSelectors.Nodup
    ∧ (∀ x ∈ saGetSelectors, SA_GET_ALL &&& x = x)
    ∧ (SA_GET_CORE &&& SA_GET_QNAME = 0 ∧ SA_GET_CORE &&& SA_GET_SEQ = 0
      ∧ SA_GET_CORE &&& SA_GET_QUAL = 0 ∧ SA_GET_CORE &&& SA_GET_TAGS = 0) := by
  refine ⟨by decide, by decide, by decide, by decide, by decide⟩

/-- C7: the CIGAR operation kinds, in the order match, insertion, deletion, reference-skip,
soft-clip, hard-clip, padding, have the codes `0, 1, 2, 3, 4, 5, 6`: seven pairwise distinct
codes, each below 7, so that a code identifies its kind. -/
theorem C7_cigar_codes :
    samCigarOps = [0, 1, 2, 3, 4, 5, 6]
    ∧ samCigarOps = List.range 7
    ∧ samCigarOps.length = 7
    ∧ samCigarOps.Nodup
    ∧ (∀ op ∈ samCigarOps, op < 7)
    ∧ (∀ i j : Fin 7, samCigarOps.getD i.val 0 = samCigarOps.getD j.val 0 → i = j) := by
  refine ⟨by decide, by decide, by decide, by decide, by decide, by decide⟩

/-! ## Overlap queries -/

/-- Where `BAM_FREVERSE` and `BAM_FMREVERSE` are defined with the values of `SAM_FREVERSE` and
`SAM_FMREVERSE`, `sa_aln_strand` is 1 exactly when bit 16 of `flag` is set and `sa_aln_mstrand`
is 1 exactly when bit 32 is set; both depend on `flag` only, and neither changes when the
bit of the other is flipped. -/
theorem strand_accessors_given_bam_flags (b : sa_aln_t) :
    sa_aln_strand (with_bam_flags SAM_FREVERSE SAM_FMREVERSE) b
        = some (if b.core.flag.val &&& 16 ≠ 0 then 1 else 0)
    ∧ sa_aln_mstrand (with_bam_flags SAM_FREVERSE SAM_FMREVERSE) b
        = some (if b.core.flag.val &&& 32 ≠ 0 then 1 else 0)
    ∧ (∀ b2 : sa_aln_t, b2.core.flag = b.core.flag →
        sa_aln_strand (with_bam_flags SAM_FREVERSE SAM_FMREVERSE) b2
            = sa_aln_strand (with_bam_flags SAM_FREVERSE SAM_FMREVERSE) b
          ∧ sa_aln_mstrand (with_bam_flags SAM_FREVERSE SAM_FMREVERSE) b2
            = sa_aln_mstrand (with_bam_flags SAM_FREVERSE SAM_FMREVERSE) b)
    ∧ (∀ b2 : sa_aln_t, b2.core.flag.val = b.core.flag.val ^^^ 32 →
        sa_aln_strand (with_bam_flags SAM_FREVERSE SAM_FMREVERSE) b2
          = sa_aln_strand (with_bam_flags SAM_FREVERSE SAM_FMREVERSE) b)
    ∧ (∀ b2 : sa_aln_t, b2.core.flag.val = b.core.flag.val ^^^ 16 →
        sa_aln_mstrand (with_bam_flags SAM_FREVERSE SAM_FMREVERSE) b2
          = sa_aln_mstrand (with_bam_flags SAM_FREVERSE SAM_FMREVERSE) b) := by
  have hbit : ∀ (x k j : Nat), k ≠ j → ((x ^^^ 2 ^ j) &&& 2 ^ k ≠ 0 ↔ x &&& 2 ^ k ≠ 0) := by
    intro x k j hkj
    rw [and_two_pow_ne_zero, and_two_pow_ne_zero, Nat.testBit_xor, Nat.testBit_two_pow]
    have : decide (j = k) = false := by simpa using fun h => hkj h.symm
    rw [this]
    simp
  refine ⟨rfl, rfl, ?_, ?_, ?_⟩
  · intro b2 h
    unfold sa_aln_strand sa_aln_mstrand
    rw [h]
    exact ⟨rfl, rfl⟩
  · intro b2 h
    have hb := hbit b.core.flag.val 4 5 (by decide)
    simp only [sa_aln_strand, with_bam_flags, SAM_FREVERSE, Option.map_some', h]
    simp only [show (2 : Nat) ^ 5 = 32 from rfl, show (2 : Nat) ^ 4 = 16 from rfl] at hb
    simp only [hb]
  · intro b2 h
    have hb := hbit b.core.flag.val 5 4 (by decide)
    simp only [sa_aln_mstrand, with_bam_flags, SAM_FMREVERSE, Option.map_some', h]
    simp only [show (2 : Nat) ^ 5 = 32 from rfl, show (2 : Nat) ^ 4 = 16 from rfl] at hb
    simp only [hb]

/-- C4: sapi.h defines `SAM_FREVERSE = 16` and `SAM_FMREVERSE = 32`, but the strand accessors
test `BAM_FREVERSE` and `BAM_FMREVERSE`, which it does not define. With the definitions of
sapi.h alone neither accessor has a value, for any record: so for `sample_aln`, whose
reverse-strand bit is set, `sa_aln_strand` is not 1. -/
theorem C4_strand_accessors_name_undefined_flags :
    (sapi_defines Ident.SAM_FREVERSE = some 16 ∧ sapi_defines Ident.SAM_FMREVERSE = some 32)
    ∧ (sapi_defines Ident.BAM_FREVERSE = none ∧ sapi_defines Ident.BAM_FMREVERSE = none)
    ∧ (sample_aln.core.flag.val &&& SAM_FREVERSE ≠ 0
      ∧ sa_aln_strand sapi_defines sample_aln ≠ some 1)
    ∧ (∀ b : sa_aln_t,
        sa_aln_strand sapi_defines b = none ∧ sa_aln_mstrand sapi_defines b = none) := by
  refine ⟨⟨rfl, rfl⟩, ⟨rfl, rfl⟩, ⟨by decide, by decide⟩, ?_⟩
  intro b
  exact ⟨rfl, rfl⟩

end Sapi
